import Mathlib

/-!
  Verification development for the playback manager in
  `src/src/services/player.ts` (the only source file of the repository).

  The embedding is shallow: the mutable player object becomes a
  `PlayerState` record threaded explicitly through each operation, and every
  operation returns the pair of its outcome (`Except Err Unit`, where an
  `Except.error` models a thrown JavaScript `Error`) and the state of the
  player at the moment the operation returns or throws.  JavaScript number
  truthiness (`if (x)` with `x : number | undefined`) is modelled exactly:
  `undefined` and `0` are falsy, every other natural number is truthy.

  External collaborators are modelled as explicit parameters:
  the filesystem is a predicate `FS : String → Bool` (presence of a path),
  the remote source is a map from identifiers to format lists, and the
  discord transport is reduced to the pieces of its behaviour the player
  observes (a dispatcher handle with a paused flag).  The queue collaborator
  lives in `src/services/queue.ts`, which is not part of `src/`; its two
  operations are modelled from the spec (section 6) and say so in their
  doc comments.
-/

/-- Playback status enum, from `player.ts` lines 11-15
(`STATUS { PLAYING, PAUSED, DISCONNECTED }`). -/
inductive STATUS
  | PLAYING
  | PAUSED
  | DISCONNECTED
deriving DecidableEq

/-- Errors thrown by `player.ts`, identified by their message text:
`NotConnectedError` = "Not connected to a voice channel." (lines 50, 79),
`NoCurrentSongError` = "No song currently playing" (line 56),
`EmptyQueueError` = "Queue empty." (line 97),
`NotPlayingError` = "Not currently playing." (line 116),
`CacheTimeoutError` = "Timed out waiting for file to become cached." (line 173),
`NoSuitableFormatError` = the suitable-format error (line 217),
`TypeErrorLiveOfUndefined` = the runtime TypeError raised by evaluating
`formats[0].live` on an empty array (line 199). -/
inductive Err
  | NotConnectedError
  | NoCurrentSongError
  | EmptyQueueError
  | NotPlayingError
  | CacheTimeoutError
  | NoSuitableFormatError
  | TypeErrorLiveOfUndefined
deriving DecidableEq

/-- Decidable equality for `Except`, used to evaluate concrete runs of the
embedded operations. -/
instance {ε α : Type} [DecidableEq ε] [DecidableEq α] : DecidableEq (Except ε α) := fun x y =>
  match x, y with
  | Except.ok a, Except.ok b =>
    if h : a = b then Decidable.isTrue (congrArg Except.ok h)
    else Decidable.isFalse fun hc => h (Except.ok.inj hc)
  | Except.error a, Except.error b =>
    if h : a = b then Decidable.isTrue (congrArg Except.error h)
    else Decidable.isFalse fun hc => h (Except.error.inj hc)
  | Except.ok _, Except.error _ => Decidable.isFalse fun hc => Except.noConfusion hc
  | Except.error _, Except.ok _ => Decidable.isFalse fun hc => Except.noConfusion hc

/-- A queued song; only its `url` field is read by `player.ts`. -/
structure QueuedSong where
  url : String
deriving DecidableEq

/-- The fields of a `ytdl.videoFormat` that `getStream` reads
(`player.ts` lines 193-219).  Fields that may be `undefined` in
JavaScript are `Option`s.  `itag` is numeric in ytdl and is compared via
`parseInt(String(itag), 10)`, which is the identity on naturals. -/
structure VideoFormat where
  itag : Nat
  codecs : String
  container : String
  audioSampleRate : Option String
  audioBitrate : Option Nat
  averageBitrate : Option Nat
  bitrate : Option Nat
  live : Bool
deriving DecidableEq

/-- Whether the selected format is streamed unmodified (`canDirectPlay`,
line 196) or piped through the ffmpeg transcoding stage (lines 226-233). -/
inductive Mode
  | direct
  | transcode
deriving DecidableEq

/-- The transport dispatcher handle, reduced to the only piece of state the
player manipulates through it (`pause` / `resume`). -/
structure Dispatcher where
  paused : Bool
deriving DecidableEq

/-- The mutable fields of the player object (`player.ts` lines 18-25)
plus the contents of the external queue object it holds a reference to.
`voiceConnected` models `voiceConnection !== null`. -/
structure PlayerState where
  status : STATUS
  queue : List QueuedSong
  voiceConnected : Bool
  dispatcher : Option Dispatcher
  trackerRunning : Bool
  positionInSeconds : Nat
deriving DecidableEq

/-- The read-only environment of a player operation: the configured cache
directory (constructor argument, line 27), the cache state as observed by
`fs.access` (constant during one operation), and the remote format lists
returned by `ytdl.getInfo` per url. -/
structure Env where
  cacheDir : String
  cached : String → Bool
  formats : String → List VideoFormat

/-- Result of `getStream` (line 181): either the cached file path or a
live capacitor-backed stream of the chosen remote format. -/
inductive StreamSrc
  | cachedFile (path : String)
  | remote (format : VideoFormat) (mode : Mode)
deriving DecidableEq

/-- Model of the external `hasha` library used at lines 139 and 143: a
deterministic, collision-free digest of the url.  Modelled as the identity
function, which is deterministic and injective; no property proved below
depends on more than that. -/
def hasha (url : String) : String := url

/-- Model of `path.join(dir, file)` for the two call sites in `player.ts`,
both of which join a directory and a file name. -/
def pathJoin (dir file : String) : String := dir ++ "/" ++ file

/-- `getCachedPath` (line 138): final cache artifact path. -/
def getCachedPath (cacheDir url : String) : String :=
  pathJoin cacheDir (hasha url)

/-- `getCachedPathTemp` (line 142): temporary path for in-progress cache
writes, always under `/tmp`. -/
def getCachedPathTemp (url : String) : String :=
  pathJoin "/tmp" (hasha url)

/-- Model of `parseInt(s, 10)`: skip leading whitespace, optional sign,
then a maximal run of decimal digits; `none` models `NaN` (no digits). -/
def parseInt10? (s : String) : Option Int :=
  let cs := s.data.dropWhile fun c => c == ' ' || c == '\t' || c == '\n' || c == '\r'
  let signed : Int × List Char :=
    match cs with
    | [] => (1, [])
    | c :: rest =>
      if c == '-' then (-1, rest) else if c == '+' then (1, rest) else (1, cs)
  let ds := signed.2.takeWhile Char.isDigit
  if ds.isEmpty then none
  else some (signed.1 * Int.ofNat (ds.foldl (fun acc c => acc * 10 + (c.toNat - 48)) 0))

/-- JavaScript truthiness of a `number | undefined` value: `undefined`
and `0` are falsy, any other natural is truthy. -/
def truthyNum (o : Option Nat) : Bool :=
  match o with
  | none => false
  | some n => decide (n ≠ 0)

/-- The fixed itag whitelist of acceptable live quality tiers
(`player.ts` line 202). -/
def itagWhitelist : List Nat := [128, 127, 120, 96, 95, 94, 93]

/-- The native-format predicate `filter` (line 193): codec `opus`,
container `webm`, defined sample rate parsing to 48000. -/
def formatFilter (f : VideoFormat) : Bool :=
  f.codecs == "opus" && f.container == "webm" &&
    (match f.audioSampleRate with
     | none => false
     | some s => decide (parseInt10? s = some 48000))

/-- Stable descending insertion by a natural-number key; an element is
placed before the first strictly smaller key, so equal keys keep their
original relative order, matching the stability of `Array.prototype.sort`. -/
def insertByDesc {α : Type} (key : α → Nat) (x : α) : List α → List α
  | [] => [x]
  | y :: ys => if key y ≤ key x then x :: y :: ys else y :: insertByDesc key x ys

/-- Stable descending sort by a natural-number key, modelling the two
`Array.prototype.sort` calls with comparator `(a, b) => keyB - keyA`
(`player.ts` lines 200 and 207). -/
def sortByDesc {α : Type} (key : α → Nat) : List α → List α
  | [] => []
  | x :: xs => insertByDesc key x (sortByDesc key xs)

/-- `nextBestFormat` (lines 198-209).  On an empty list the very first
expression `formats[0].live` evaluates `.live` on `undefined`, which raises
a TypeError; this is modelled as `Except.error .TypeErrorLiveOfUndefined`.
In the live branch the comparator reads `audioBitrate` (possibly
`undefined`, modelled here as key `0`; the theorems about this branch
assume every `audioBitrate` is present, since the JavaScript sort order is
implementation-defined when the comparator returns NaN).  In the finite
branch, formats with falsy `averageBitrate` are filtered out, the rest are
sorted descending by it, and the first format with falsy `bitrate` is
preferred, else the head of the sorted list; `formats[0]` on an empty
array is `undefined`, modelled by `List.head?`. -/
def nextBestFormat (formats : List VideoFormat) : Except Err (Option VideoFormat) :=
  match formats with
  | [] => Except.error Err.TypeErrorLiveOfUndefined
  | f0 :: _ =>
    if f0.live then
      let sorted := sortByDesc (fun f => f.audioBitrate.getD 0) formats
      Except.ok (sorted.find? fun f => decide (f.itag ∈ itagWhitelist))
    else
      let fs := sortByDesc (fun f => f.averageBitrate.getD 0)
                  (formats.filter fun f => truthyNum f.averageBitrate)
      Except.ok
        (match fs.find? fun f => !truthyNum f.bitrate with
         | some r => some r
         | none => fs.head?)

/-- Format selection inside `getStream` (lines 195-219): first match of
the native `filter` gives direct play; otherwise `nextBestFormat` is
consulted, its TypeError propagates, and an `undefined` result makes
`getStream` throw the suitable-format error (line 217). -/
def selectFormat (formats : List VideoFormat) : Except Err (VideoFormat × Mode) :=
  match formats.find? formatFilter with
  | some f => Except.ok (f, Mode.direct)
  | none =>
    match nextBestFormat formats with
    | Except.error e => Except.error e
    | Except.ok none => Except.error Err.NoSuitableFormatError
    | Except.ok (some f) => Except.ok (f, Mode.transcode)

/-- `getStream` (line 181): the cached path when the artifact exists, else
the selected remote format wrapped in the capacitor-backed stream. -/
def getStream (env : Env) (url : String) : Except Err StreamSrc :=
  if env.cached url then Except.ok (StreamSrc.cachedFile (getCachedPath env.cacheDir url))
  else
    match selectFormat (env.formats url) with
    | Except.error e => Except.error e
    | Except.ok (f, m) => Except.ok (StreamSrc.remote f m)

/-- Modelled from the spec: `get()` of the external queue collaborator
(`src/services/queue.ts`, not present under `src/`).  Spec section 6: it
returns the ordered songs with head = currently playing song. -/
def queueGet (q : List QueuedSong) : List QueuedSong := q

/-- Modelled from the spec: `forward()` of the external queue collaborator
(`src/services/queue.ts`, not present under `src/`).  Spec section 6: it
drops the head and advances. -/
def queueForward (q : List QueuedSong) : List QueuedSong := q.tail

/-- `getCurrentSong` (lines 128-136): `null` when the queue is empty, else
`songs[0]`. -/
def getCurrentSong (s : PlayerState) : Option QueuedSong :=
  let songs := queueGet s.queue
  if songs.length = 0 then none else songs.head?

/-- `startTrackingPosition(initalPosition?)` (lines 255-267).  The
JavaScript guard `if (initalPosition)` is a truthiness test: the position
field is overwritten only when the argument is present and nonzero.  The
running interval is always (re)installed. -/
def startTrackingPosition (initalPosition : Option Nat) (s : PlayerState) : PlayerState :=
  let s1 :=
    match initalPosition with
    | some p => if p ≠ 0 then { s with positionInSeconds := p } else s
    | none => s
  { s1 with trackerRunning := true }

/-- `stopTrackingPosition` (lines 269-273): clears the tick interval,
leaving the position value untouched. -/
def stopTrackingPosition (s : PlayerState) : PlayerState :=
  { s with trackerRunning := false }

/-- The polling loop body of `waitForCache` (lines 164-176), with explicit
fuel so that the definition is structural.  `cachedAt t` is the cache
observation at interval tick `t` (tick 0 is the initial check before the
interval starts).  At each tick the cache is checked first; on a miss the
counter (which equals the tick number) is compared against `maxRetries`
with a strict `>`.  The second component counts interval polls performed.
The fuel case returning a timeout is unreachable from `waitForCache`,
which supplies fuel `maxRetries + 1`. -/
def waitTicks (cachedAt : Nat → Bool) (maxRetries : Nat) : Nat → Nat → Except Err Unit × Nat
  | tick, 0 => (Except.error Err.CacheTimeoutError, tick)
  | tick, fuel + 1 =>
    if cachedAt tick then (Except.ok (), tick)
    else if tick > maxRetries then (Except.error Err.CacheTimeoutError, tick)
    else waitTicks cachedAt maxRetries (tick + 1) fuel

/-- `waitForCache(url, maxRetries = 50, retryDelay = 500)` (lines
156-179): an immediate check, then interval polling via `waitTicks`.
Returns the outcome together with the number of interval polls
performed. -/
def waitForCache (cachedAt : Nat → Bool) (maxRetries : Nat) : Except Err Unit × Nat :=
  if cachedAt 0 then (Except.ok (), 0)
  else waitTicks cachedAt maxRetries 1 (maxRetries + 1)

/-- `seek(positionSeconds)` (lines 48-67): connection check, current-song
check, `waitForCache` on the song url (defaults `maxRetries = 50`; the
cache observation is constant during one operation, so the oracle is
constant), then transport play with the seek option, listener attachment
(no state effect), tracker start with the requested position, status to
`PLAYING`.  Every throw happens before any field is mutated, so the input
state is returned unchanged alongside the error. -/
def seek (env : Env) (s : PlayerState) (positionSeconds : Nat) : Except Err Unit × PlayerState :=
  if s.voiceConnected = false then (Except.error Err.NotConnectedError, s)
  else
    match getCurrentSong s with
    | none => (Except.error Err.NoCurrentSongError, s)
    | some song =>
      match (waitForCache (fun _ => env.cached song.url) 50).1 with
      | Except.error e => (Except.error e, s)
      | Except.ok _ =>
        let s1 := { s with dispatcher := some { paused := false } }
        let s2 := startTrackingPosition (some positionSeconds) s1
        (Except.ok (), { s2 with status := STATUS.PLAYING })

/-- `play()` (lines 77-112): connection check first; resume path from
`PAUSED` (dispatcher resume, or delegation to `seek(getPosition())` when
the dispatcher is gone); otherwise head-of-queue check, source acquisition
(cached path, or `getStream` whose errors propagate), listener attachment,
status to `PLAYING`, and a tracker start with no argument. -/
def play (env : Env) (s : PlayerState) : Except Err Unit × PlayerState :=
  if s.voiceConnected = false then (Except.error Err.NotConnectedError, s)
  else if s.status = STATUS.PAUSED then
    match s.dispatcher with
    | some d =>
      (Except.ok (), { s with dispatcher := some { d with paused := false }, status := STATUS.PLAYING })
    | none => seek env s s.positionInSeconds
  else
    match getCurrentSong s with
    | none => (Except.error Err.EmptyQueueError, s)
    | some song =>
      if env.cached song.url then
        let s1 := { s with dispatcher := some { paused := false }, status := STATUS.PLAYING }
        (Except.ok (), startTrackingPosition none s1)
      else
        match getStream env song.url with
        | Except.error e => (Except.error e, s)
        | Except.ok _ =>
          let s1 := { s with dispatcher := some { paused := false }, status := STATUS.PLAYING }
          (Except.ok (), startTrackingPosition none s1)

/-- `pause()` (lines 114-126): throws before any mutation unless the
status is `PLAYING`; otherwise sets status to `PAUSED`, pauses the
dispatcher when one is attached, and stops the tracker. -/
def pause (s : PlayerState) : Except Err Unit × PlayerState :=
  if s.status ≠ STATUS.PLAYING then (Except.error Err.NotPlayingError, s)
  else
    let s1 := { s with status := STATUS.PAUSED }
    let s2 := { s1 with dispatcher := s1.dispatcher.map fun d => { d with paused := true } }
    (Except.ok (), stopTrackingPosition s2)

/-- The `speaking` listener installed by `attachListeners` (lines
293-301): on a speaking edge with `isSpeaking = false` while `PLAYING`,
when `queue.get()` is nonempty the queue is forwarded and `play()` is
invoked again; a rejection of that `play()` call is the outcome of the
handler (in the source it becomes an unhandled promise rejection). -/
def onSpeaking (env : Env) (s : PlayerState) (isSpeaking : Bool) : Except Err Unit × PlayerState :=
  if isSpeaking = false ∧ s.status = STATUS.PLAYING then
    if (queueGet s.queue).length > 0 then
      play env { s with queue := queueForward s.queue }
    else (Except.ok (), s)
  else (Except.ok (), s)

/-- A filesystem as the cache sees it: which paths are present.
`isCached` (lines 146-154) probes with `fs.access` and maps any error to
`false`, so presence of the final path is exactly what it observes. -/
def FS : Type := String → Bool

/-- `isCached` (lines 146-154) over an `FS`. -/
def isCachedFS (cacheDir url : String) (fs : FS) : Bool :=
  fs (getCachedPath cacheDir url)

/-- Events of the cache-writer path in `getStream` (lines 236-250):
opening the temp write stream, writing a chunk to the temp path, and the
`finish` handler performing `fs.rename(temp, final)`. -/
inductive CacheEv
  | openTemp
  | writeChunk
  | finishRename
deriving DecidableEq

/-- Effect of one cache-writer event on the filesystem: the open and the
chunk writes touch only the temp path; the rename removes the temp path
and creates the final path. -/
def cacheStep (temp finalPath : String) (fs : FS) : CacheEv → FS
  | CacheEv.openTemp => fun p => p == temp || fs p
  | CacheEv.writeChunk => fun p => p == temp || fs p
  | CacheEv.finishRename => fun p => if p == temp then false else (p == finalPath || fs p)

/-- Folding a sequence of cache-writer events over a filesystem. -/
def applyRun (temp finalPath : String) (fs : FS) (run : List CacheEv) : FS :=
  run.foldl (cacheStep temp finalPath) fs

/-- Possible fates of the fire-and-forget cache writer forked at lines
241-250: the write completes and the `finish` handler renames; the write
stream errors before finishing; or the rename itself rejects. -/
inductive CacheOutcome
  | success
  | writeError
  | renameError
deriving DecidableEq

/-- The FILESYSTEM events each outcome produces: the rename runs only
from the `finish` listener (line 245), so both failure outcomes stop
after the chunk writes and never create the final artifact.  Error
VISIBILITY is not part of this definition; it is derived below from the
listener registrations the source performs. -/
def cacheWriterEvents : CacheOutcome → List CacheEv
  | CacheOutcome.success => [CacheEv.openTemp, CacheEv.writeChunk, CacheEv.finishRename]
  | CacheOutcome.writeError => [CacheEv.openTemp, CacheEv.writeChunk]
  | CacheOutcome.renameError => [CacheEv.openTemp, CacheEv.writeChunk]

/-- The listeners the source registers on `cacheStream`: exactly one,
for the `finish` event (line 245).  In particular no listener for the
`error` event is ever registered, and no `try`/`catch` wraps the write
path. -/
def cacheStreamListeners : List String := ["finish"]

/-- Node event-emitter semantics for a stream `error` event: when no
`error` listener is registered on the emitting stream, the error is
thrown as an uncaught exception, which terminates the process.  Returns
`true` when emitting an error on a stream with the given listeners is
fatal. -/
def errorEventFatal (listeners : List String) : Bool :=
  !(listeners.contains "error")

/-- Whether the rename rejection has any handler: the `finish` listener
(lines 245-247) is an async arrow whose promise is neither awaited nor
given a catch and whose body has no `try`/`catch`, so a rejection of
`fs.rename` has no handler and becomes an unhandled promise rejection. -/
def renameRejectionHandled : Bool := false

/-- Observable run of the tail of `getStream` for an uncached url
(lines 236-252): the value the caller receives, the filesystem after the
cache-writer events, and whether the run raises an uncaught exception or
an unhandled promise rejection. -/
structure PublishRun where
  result : Except Err (List Nat)
  fs : FS
  uncaughtException : Bool
  unhandledRejection : Bool

/-- The tail of `getStream` for an uncached url (lines 236-252): the
acquired bytes are piped into the capacitor; unless the source is live, a
second capacitor reader is piped into the cache writer.  The `return`
at line 252 runs synchronously, before any cache-writer event can fire,
so the caller always receives the transport-facing capacitor reader
(represented by the byte sequence it is fed).  A write error is emitted
on `cacheStream`, whose listener list (`cacheStreamListeners`) holds no
`error` entry, so it is fatal per `errorEventFatal`; a rename rejection
is unhandled per `renameRejectionHandled`. -/
def capacitorPublish (src : List Nat) (isLive : Bool) (cacheDir url : String)
    (fs : FS) (outcome : CacheOutcome) : PublishRun :=
  if isLive then
    { result := Except.ok src, fs := fs,
      uncaughtException := false, unhandledRejection := false }
  else
    { result := Except.ok src,
      fs := applyRun (getCachedPathTemp url) (getCachedPath cacheDir url) fs
        (cacheWriterEvents outcome),
      uncaughtException :=
        outcome == CacheOutcome.writeError && errorEventFatal cacheStreamListeners,
      unhandledRejection :=
        outcome == CacheOutcome.renameError && !renameRejectionHandled }

/-- An uncaught exception terminates the Node process and with it every
live stream, including the transport-facing capacitor reader. -/
def transportInterrupted (r : PublishRun) : Bool := r.uncaughtException

/-- Membership is preserved by a descending insertion. -/
theorem mem_insertByDesc {α : Type} (key : α → Nat) (x : α) (l : List α) (a : α) :
    a ∈ insertByDesc key x l ↔ a = x ∨ a ∈ l := by
  induction l with
  | nil => simp [insertByDesc]
  | cons y ys ih =>
    by_cases h : key y ≤ key x
    · simp [insertByDesc, h]
    · simp [insertByDesc, h, ih]
      tauto

/-- Membership is preserved by the descending sort. -/
theorem mem_sortByDesc {α : Type} (key : α → Nat) (l : List α) (a : α) :
    a ∈ sortByDesc key l ↔ a ∈ l := by
  induction l with
  | nil => simp [sortByDesc]
  | cons y ys ih =>
    simp [sortByDesc, mem_insertByDesc, ih]

/-- Descending insertion preserves the pairwise descending-key invariant. -/
theorem pairwise_insertByDesc {α : Type} (key : α → Nat) (x : α) (l : List α)
    (h : l.Pairwise fun a b => key b ≤ key a) :
    (insertByDesc key x l).Pairwise fun a b => key b ≤ key a := by
  induction l with
  | nil => simp [insertByDesc]
  | cons y ys ih =>
    rw [List.pairwise_cons] at h
    obtain ⟨hy, hys⟩ := h
    by_cases hk : key y ≤ key x
    · simp only [insertByDesc, if_pos hk]
      refine List.Pairwise.cons ?_ (List.Pairwise.cons hy hys)
      intro b hb
      rcases List.mem_cons.mp hb with rfl | hb
      · exact hk
      · exact le_trans (hy b hb) hk
    · simp only [insertByDesc, if_neg hk]
      refine List.Pairwise.cons ?_ (ih hys)
      intro b hb
      rcases (mem_insertByDesc key x ys b).mp hb with rfl | hb
      · exact le_of_lt (lt_of_not_le hk)
      · exact hy b hb

/-- The descending sort produces a pairwise descending-key list. -/
theorem pairwise_sortByDesc {α : Type} (key : α → Nat) (l : List α) :
    (sortByDesc key l).Pairwise fun a b => key b ≤ key a := by
  induction l with
  | nil => simp [sortByDesc]
  | cons y ys ih => exact pairwise_insertByDesc key y (sortByDesc key ys) ih

/-- In a pairwise-descending list, `find?` returns an element whose key
dominates every element satisfying the predicate. -/
theorem find?_max_of_pairwise {α : Type} (key : α → Nat) (p : α → Bool) (l : List α)
    (hp : l.Pairwise fun a b => key b ≤ key a) (r : α) (h : l.find? p = some r) :
    ∀ g ∈ l, p g = true → key g ≤ key r := by
  induction l with
  | nil => cases h
  | cons x xs ih =>
    rw [List.pairwise_cons] at hp
    obtain ⟨hx, hxs⟩ := hp
    cases hpx : p x with
    | true =>
      rw [List.find?_cons_of_pos _ hpx] at h
      injection h with h
      subst h
      intro g hg _
      rcases List.mem_cons.mp hg with rfl | hg
      · exact le_refl _
      · exact hx g hg
    | false =>
      rw [List.find?_cons_of_neg _ (by simp [hpx])] at h
      intro g hg hpg
      rcases List.mem_cons.mp hg with rfl | hg
      · rw [hpx] at hpg; cases hpg
      · exact ih hxs h g hg hpg

/-- In a pairwise-descending list, the head dominates every element. -/
theorem head?_max_of_pairwise {α : Type} (key : α → Nat) (l : List α)
    (hp : l.Pairwise fun a b => key b ≤ key a) (r : α) (h : l.head? = some r) :
    ∀ g ∈ l, key g ≤ key r := by
  cases l with
  | nil => cases h
  | cons x xs =>
    injection h with h
    subst h
    rw [List.pairwise_cons] at hp
    intro g hg
    rcases List.mem_cons.mp hg with rfl | hg
    · exact le_refl _
    · exact hp.1 g hg

/-- A successful `find?` splits the list at the first hit: everything
before the result refutes the predicate. -/
theorem find?_decomp {α : Type} (p : α → Bool) (l : List α) (r : α) (h : l.find? p = some r) :
    ∃ l₁ l₂, l = l₁ ++ r :: l₂ ∧ ∀ g ∈ l₁, p g = false := by
  induction l with
  | nil => cases h
  | cons x xs ih =>
    cases hpx : p x with
    | true =>
      rw [List.find?_cons_of_pos _ hpx] at h
      injection h with h
      subst h
      exact ⟨[], xs, rfl, by simp⟩
    | false =>
      rw [List.find?_cons_of_neg _ (by simp [hpx])] at h
      obtain ⟨l₁, l₂, rfl, hl₁⟩ := ih h
      refine ⟨x :: l₁, l₂, rfl, ?_⟩
      intro g hg
      rcases List.mem_cons.mp hg with rfl | hg
      · exact hpx
      · exact hl₁ g hg

/-- When some element satisfies the predicate, `find?` succeeds. -/
theorem exists_find?_of_mem {α : Type} (p : α → Bool) (l : List α)
    (h : ∃ g ∈ l, p g = true) : ∃ r, l.find? p = some r := by
  cases hf : l.find? p with
  | some r => exact ⟨r, rfl⟩
  | none =>
    obtain ⟨g, hg, hpg⟩ := h
    exact absurd hpg (List.find?_eq_none.mp hf g hg)

/-- Joining the same file name under different directories yields
different paths. -/
theorem pathJoin_ne_of_dir_ne (d1 d2 f : String) (h : d1 ≠ d2) :
    pathJoin d1 f ≠ pathJoin d2 f := by
  intro he
  apply h
  have hd : (d1 ++ "/" ++ f).data = (d2 ++ "/" ++ f).data := congrArg String.data he
  simp only [String.data_append] at hd
  have h2 := List.append_cancel_right hd
  have h3 := List.append_cancel_right h2
  exact String.ext h3

/-- Temp and final cache paths for the same url differ whenever the cache
directory is not `/tmp` itself. -/
theorem cachePaths_ne (cacheDir url : String) (h : cacheDir ≠ "/tmp") :
    getCachedPath cacheDir url ≠ getCachedPathTemp url :=
  pathJoin_ne_of_dir_ne cacheDir "/tmp" (hasha url) h

/-- On a never-cached url the polling loop runs to its rejection tick and
reports `maxRetries + 1` interval polls, independent of the start tick. -/
theorem waitTicks_never_cached (m : Nat) :
    ∀ fuel tick, tick + fuel = m + 2 → tick ≤ m + 1 →
    waitTicks (fun _ => false) m tick fuel = (Except.error Err.CacheTimeoutError, m + 1) := by
  intro fuel
  induction fuel with
  | zero =>
    intro tick hsum hle
    omega
  | succ f ih =>
    intro tick hsum hle
    by_cases hg : tick > m
    · have ht : tick = m + 1 := by omega
      subst ht
      simp [waitTicks, hg]
    · have h1 : tick + 1 + f = m + 2 := by omega
      have h2 : tick + 1 ≤ m + 1 := by omega
      simp only [waitTicks, Bool.false_eq_true, if_false, if_neg hg]
      exact ih (tick + 1) h1 h2

/-- The polling loop never performs more than `maxRetries + 1` interval
polls, whatever the cache oracle does. -/
theorem waitTicks_poll_bound (c : Nat → Bool) (m : Nat) :
    ∀ fuel tick, tick + fuel = m + 2 → tick ≤ m + 1 →
    (waitTicks c m tick fuel).2 ≤ m + 1 := by
  intro fuel
  induction fuel with
  | zero =>
    intro tick hsum hle
    omega
  | succ f ih =>
    intro tick hsum hle
    by_cases hc : c tick
    · simp [waitTicks, hc, hle]
    · by_cases hg : tick > m
      · simp [waitTicks, hc, hg, hle]
      · have h1 : tick + 1 + f = m + 2 := by omega
        have h2 : tick + 1 ≤ m + 1 := by omega
        simp only [waitTicks, hc, Bool.false_eq_true, if_false, if_neg hg]
        exact ih (tick + 1) h1 h2

/-- A run of cache-writer events that never renames leaves the final path
exactly as it was. -/
theorem applyRun_no_rename (temp finalPath : String) (hne : finalPath ≠ temp)
    (run : List CacheEv) :
    ∀ fs : FS, CacheEv.finishRename ∉ run →
    applyRun temp finalPath fs run finalPath = fs finalPath := by
  induction run with
  | nil => intro fs _; rfl
  | cons e es ih =>
    intro fs hmem
    have he : e ≠ CacheEv.finishRename := fun h => hmem (h ▸ List.mem_cons_self e es)
    have hes : CacheEv.finishRename ∉ es := fun h => hmem (List.mem_cons_of_mem e h)
    have hb : (finalPath == temp) = false := beq_eq_false_iff_ne.mpr hne
    show applyRun temp finalPath (cacheStep temp finalPath fs e) es finalPath = fs finalPath
    rw [ih _ hes]
    cases e with
    | openTemp => simp [cacheStep, hb]
    | writeChunk => simp [cacheStep, hb]
    | finishRename => exact absurd rfl he

/-- A run ending in the rename makes the final path present. -/
theorem applyRun_rename (temp finalPath : String) (hne : finalPath ≠ temp)
    (fs : FS) (run : List CacheEv) :
    applyRun temp finalPath fs (run ++ [CacheEv.finishRename]) finalPath = true := by
  have hb : (finalPath == temp) = false := beq_eq_false_iff_ne.mpr hne
  simp [applyRun, List.foldl_append, cacheStep, hb, hne]

/-- Once the final path is present, no later cache-writer run removes it. -/
theorem applyRun_preserves_final (temp finalPath : String) (hne : finalPath ≠ temp)
    (run : List CacheEv) :
    ∀ fs : FS, fs finalPath = true →
    applyRun temp finalPath fs run finalPath = true := by
  induction run with
  | nil => intro fs h; exact h
  | cons e es ih =>
    intro fs h
    have hb : (finalPath == temp) = false := beq_eq_false_iff_ne.mpr hne
    refine ih _ ?_
    cases e with
    | openTemp => simp [cacheStep, h]
    | writeChunk => simp [cacheStep, h]
    | finishRename => simp [cacheStep, hb]

/-- An environment in which every url is cached; the remote format list is
never consulted on the paths exercised with it. -/
def cachedEnv : Env := ⟨"/cache", fun _ => true, fun _ => []⟩

/-- A session mid-playback of song `a` (100 seconds in), with song `b`
queued next; the end-of-track edge of `a` is about to fire. -/
def endOfTrackSt : PlayerState :=
  ⟨STATUS.PLAYING, [⟨"a"⟩, ⟨"b"⟩], true, some ⟨false⟩, true, 100⟩

/-- A fresh session (status `DISCONNECTED`, transport attached) whose
position field still holds 100 seconds left over from earlier playback. -/
def freshWithStalePos : PlayerState :=
  ⟨STATUS.DISCONNECTED, [⟨"b"⟩], true, none, false, 100⟩

/-- C1 (code bug): a fresh `play()` and the automatic end-of-track advance
both call `startTrackingPosition()` with no argument (line 111), whose
truthiness guard (line 256) then never resets `positionInSeconds`; the
claim and the spec say the tracker restarts from 0.  Evaluating the code
at the failing inputs: the end-of-track edge on queue `[a, b]` with
leftover position 100 auto-starts `b` with `getPosition()` still 100, and
a fresh `play()` from `DISCONNECTED` with leftover position 100 succeeds
with `getPosition()` still 100 instead of 0. -/
theorem play_fresh_keeps_stale_position :
    (onSpeaking cachedEnv endOfTrackSt false).1 = Except.ok () ∧
    (onSpeaking cachedEnv endOfTrackSt false).2.status = STATUS.PLAYING ∧
    (onSpeaking cachedEnv endOfTrackSt false).2.queue = [⟨"b"⟩] ∧
    (onSpeaking cachedEnv endOfTrackSt false).2.positionInSeconds = 100 ∧
    (play cachedEnv freshWithStalePos).1 = Except.ok () ∧
    (play cachedEnv freshWithStalePos).2.positionInSeconds = 100 := by
  decide

/-- A session playing song `b` (cached) with a leftover tracker value of
5 seconds. -/
def seekZeroSt : PlayerState :=
  ⟨STATUS.PLAYING, [⟨"b"⟩], true, some ⟨false⟩, true, 5⟩

/-- C2 (code bug): `seek(p)` forwards `p` to `startTrackingPosition`
(line 64), whose guard `if (initalPosition)` (line 256) treats 0 as
falsy, so `seek(0)` leaves the tracker at its previous value.  Evaluating
the code: `seek(0)` on a session whose tracker holds 5 succeeds with
status `PLAYING` but `getPosition()` still 5, while `seek(30)` does reset
the tracker to 30 as the claim demands for nonzero offsets. -/
theorem seek_zero_keeps_stale_position :
    (seek cachedEnv seekZeroSt 0).1 = Except.ok () ∧
    (seek cachedEnv seekZeroSt 0).2.status = STATUS.PLAYING ∧
    (seek cachedEnv seekZeroSt 0).2.positionInSeconds = 5 ∧
    (seek cachedEnv seekZeroSt 30).2.positionInSeconds = 30 := by
  decide

/-- A session playing the last queued song `a`. -/
def lastTrackSt : PlayerState :=
  ⟨STATUS.PLAYING, [⟨"a"⟩], true, some ⟨false⟩, true, 100⟩

/-- C3 (code bug): the `speaking` listener guards the advance with
`queue.get().length > 0` (line 296), but per the spec the head of
`queue.get()` is the song that just finished, so on the end-of-track edge
of the LAST song the guard still holds, the queue is forwarded to empty,
and the recursive `play()` (line 298) throws the empty-queue error, where
the claim and spec section 4.4a say playback simply stops with no error.
Evaluating the code at the failing input (queue `[a]`, edge fires): the
handler rejects with `EmptyQueueError` and has already advanced the queue
to empty. -/
theorem last_track_end_raises_empty_queue :
    (onSpeaking cachedEnv lastTrackSt false).1 = Except.error Err.EmptyQueueError ∧
    (onSpeaking cachedEnv lastTrackSt false).2.queue = [] := by
  decide

/-- C9: `pause()` throws `NotPlayingError` before any mutation unless the
status is `PLAYING` (so from `DISCONNECTED` or `PAUSED` the whole state is
returned untouched), and on success it sets status to `PAUSED`, pauses the
dispatcher when one is attached, and stops the tracker, leaving position
and queue untouched. -/
theorem pause_spec (s : PlayerState) :
    ((s.status = STATUS.DISCONNECTED ∨ s.status = STATUS.PAUSED) →
      pause s = (Except.error Err.NotPlayingError, s)) ∧
    (s.status = STATUS.PLAYING →
      pause s = (Except.ok (),
        { s with status := STATUS.PAUSED,
                 dispatcher := s.dispatcher.map fun d => { d with paused := true },
                 trackerRunning := false })) := by
  constructor
  · intro h
    have hne : s.status ≠ STATUS.PLAYING := by
      rcases h with h | h <;> simp [h]
    simp [pause, hne]
  · intro h
    simp [pause, h, stopTrackingPosition]

/-- A paused session with nontrivial position and dispatcher, and a
playing session, to exercise both branches of `pause_spec`. -/
def pausedFixture : PlayerState := ⟨STATUS.PAUSED, [⟨"a"⟩], true, some ⟨true⟩, false, 7⟩

/-- A playing session used as the success-branch fixture for `pause`. -/
def playingFixture : PlayerState := ⟨STATUS.PLAYING, [⟨"a"⟩], true, some ⟨false⟩, true, 7⟩

/-- Witness for `pause_spec`: both branches evaluated at concrete
sessions. -/
theorem pause_spec_witness :
    pause pausedFixture = (Except.error Err.NotPlayingError, pausedFixture) ∧
    pause playingFixture = (Except.ok (),
      { playingFixture with status := STATUS.PAUSED,
                            dispatcher := playingFixture.dispatcher.map fun d => { d with paused := true },
                            trackerRunning := false }) :=
  ⟨(pause_spec pausedFixture).1 (Or.inr rfl), (pause_spec playingFixture).2 rfl⟩

/-- C10: both `play()` (line 78) and `seek()` (line 49) test the voice
connection before anything else, so without a connection they throw
`NotConnectedError` with the whole state unchanged, for every status
(including `PAUSED`) and every queue (including the empty one, where the
empty-queue check would otherwise fire). -/
theorem connection_checked_first (env : Env) (s : PlayerState) (p : Nat)
    (h : s.voiceConnected = false) :
    play env s = (Except.error Err.NotConnectedError, s) ∧
    seek env s p = (Except.error Err.NotConnectedError, s) := by
  constructor
  · simp [play, h]
  · simp [seek, h]

/-- A disconnected session with an empty queue. -/
def disconnectedEmptyQueueSt : PlayerState := ⟨STATUS.DISCONNECTED, [], false, none, false, 0⟩

/-- Witness for `connection_checked_first`: with no connection and an
empty queue, `play()` fails with `NotConnectedError`, not
`EmptyQueueError`, and `seek(30)` likewise. -/
theorem connection_checked_first_witness :
    play cachedEnv disconnectedEmptyQueueSt = (Except.error Err.NotConnectedError, disconnectedEmptyQueueSt) ∧
    seek cachedEnv disconnectedEmptyQueueSt 30 = (Except.error Err.NotConnectedError, disconnectedEmptyQueueSt) :=
  connection_checked_first cachedEnv disconnectedEmptyQueueSt 30 rfl

/-- An empty filesystem. -/
def emptyFS : FS := fun _ => false

/-- C4 (code bug): nothing in the source swallows or logs a cache-write
failure.  `cacheStream` (created at line 243) gets only a `finish`
listener (line 245), so a temp-file write error is emitted on a stream
with no `error` listener and is thrown as an uncaught exception that
terminates the process — interrupting the transport-facing stream, which
the claim says can never happen; a rename rejection inside the async
`finish` listener (lines 245-247) becomes an unhandled promise rejection.
Evaluating the code at a concrete non-live acquisition: the write-error
outcome raises an uncaught exception and interrupts the transport, the
rename-error outcome leaves an unhandled rejection, a successful run
raises neither, and only the synchronous part of the claim holds: the
capacitor reader is returned to the caller (before any cache event can
fire) in every outcome. -/
theorem cache_write_failure_not_swallowed :
    (capacitorPublish [7] false "/var/cache" "song" emptyFS CacheOutcome.writeError).uncaughtException = true ∧
    transportInterrupted
      (capacitorPublish [7] false "/var/cache" "song" emptyFS CacheOutcome.writeError) = true ∧
    (capacitorPublish [7] false "/var/cache" "song" emptyFS CacheOutcome.renameError).unhandledRejection = true ∧
    (capacitorPublish [7] false "/var/cache" "song" emptyFS CacheOutcome.success).uncaughtException = false ∧
    (capacitorPublish [7] false "/var/cache" "song" emptyFS CacheOutcome.success).unhandledRejection = false ∧
    (capacitorPublish [7] false "/var/cache" "song" emptyFS CacheOutcome.writeError).result = Except.ok [7] := by
  decide

/-- C5: with the cache directory distinct from `/tmp` (so that the temp
path of line 143 differs from the final path of line 139), the existence
check stays false through every rename-free prefix of a publish (so
in-progress, failed and aborted writes are never observable), becomes true
once the finishing rename runs, and stays true under any further
cache-writer events. -/
theorem cache_atomic_visibility (cacheDir url : String) (hdir : cacheDir ≠ "/tmp")
    (fs : FS) (h0 : isCachedFS cacheDir url fs = false) (run run2 : List CacheEv) :
    (CacheEv.finishRename ∉ run →
      isCachedFS cacheDir url
        (applyRun (getCachedPathTemp url) (getCachedPath cacheDir url) fs run) = false) ∧
    isCachedFS cacheDir url
      (applyRun (getCachedPathTemp url) (getCachedPath cacheDir url) fs
        (run ++ [CacheEv.finishRename])) = true ∧
    (∀ fs2 : FS, isCachedFS cacheDir url fs2 = true →
      isCachedFS cacheDir url
        (applyRun (getCachedPathTemp url) (getCachedPath cacheDir url) fs2 run2) = true) := by
  have hne : getCachedPath cacheDir url ≠ getCachedPathTemp url :=
    cachePaths_ne cacheDir url hdir
  refine ⟨?_, ?_, ?_⟩
  · intro hmem
    have := applyRun_no_rename (getCachedPathTemp url) (getCachedPath cacheDir url) hne run fs hmem
    unfold isCachedFS at h0 ⊢
    rw [this]
    exact h0
  · exact applyRun_rename (getCachedPathTemp url) (getCachedPath cacheDir url) hne fs run
  · intro fs2 h2
    exact applyRun_preserves_final (getCachedPathTemp url) (getCachedPath cacheDir url) hne run2 fs2 h2

/-- Witness for `cache_atomic_visibility` at a concrete cache directory,
url, in-progress run and follow-up run. -/
theorem cache_atomic_visibility_witness :
    isCachedFS "/var/cache" "song"
      (applyRun (getCachedPathTemp "song") (getCachedPath "/var/cache" "song") emptyFS
        [CacheEv.openTemp, CacheEv.writeChunk]) = false ∧
    isCachedFS "/var/cache" "song"
      (applyRun (getCachedPathTemp "song") (getCachedPath "/var/cache" "song") emptyFS
        ([CacheEv.openTemp, CacheEv.writeChunk] ++ [CacheEv.finishRename])) = true := by
  have h := cache_atomic_visibility "/var/cache" "song" (by decide) emptyFS rfl
    [CacheEv.openTemp, CacheEv.writeChunk] []
  exact ⟨h.1 (by decide), h.2.1⟩

/-- C6 (counterexample): on a never-cached url with `maxAttempts = 3`,
the code performs 4 interval polls before rejecting, not the 3 the claim
states. -/
theorem waitForCache_polls_counterexample :
    waitForCache (fun _ => false) 3 = (Except.error Err.CacheTimeoutError, 4) ∧
    (waitForCache (fun _ => false) 3).2 ≠ 3 := by
  decide

/-- C6 (amended): on a never-cached url, `waitForCache` performs exactly
`maxRetries + 1` interval polls and then rejects with the timeout error
(the counter check at line 171 uses a strict `>`), so with
`maxAttempts = 3` and a 10 ms interval it fails after about 40 ms; and for
every cache oracle the loop terminates within `maxRetries + 1` interval
polls. -/
theorem waitForCache_poll_budget (maxRetries : Nat) (cachedAt : Nat → Bool) :
    waitForCache (fun _ => false) maxRetries =
      (Except.error Err.CacheTimeoutError, maxRetries + 1) ∧
    (waitForCache cachedAt maxRetries).2 ≤ maxRetries + 1 := by
  constructor
  · show waitForCache (fun _ => false) maxRetries = _
    unfold waitForCache
    simp only [Bool.false_eq_true, if_false]
    exact waitTicks_never_cached maxRetries (maxRetries + 1) 1 (by omega) (by omega)
  · unfold waitForCache
    by_cases h : cachedAt 0
    · simp [h]
    · simp only [h, if_false]
      exact waitTicks_poll_bound cachedAt maxRetries (maxRetries + 1) 1 (by omega) (by omega)

/-- C7: for an uncached url whose format list contains at least one
native-format encoding (opus codec, webm container, 48000 Hz sample
rate), `getStream` picks the FIRST such encoding — the list splits at the
chosen format with every earlier format failing the native filter — and
returns it in direct-play mode, never entering the transcoding branch. -/
theorem native_format_direct_play (env : Env) (url : String)
    (hUncached : env.cached url = false)
    (hNative : ∃ g ∈ env.formats url, formatFilter g = true) :
    ∃ f l₁ l₂, env.formats url = l₁ ++ f :: l₂ ∧ formatFilter f = true ∧
      (∀ g ∈ l₁, formatFilter g = false) ∧
      getStream env url = Except.ok (StreamSrc.remote f Mode.direct) := by
  obtain ⟨r, hr⟩ := exists_find?_of_mem formatFilter (env.formats url) hNative
  obtain ⟨l₁, l₂, hdec, hl₁⟩ := find?_decomp formatFilter (env.formats url) r hr
  refine ⟨r, l₁, l₂, hdec, List.find?_some hr, hl₁, ?_⟩
  simp [getStream, hUncached, selectFormat, hr]

/-- A native-format encoding: opus in webm at 48000 Hz. -/
def nativeFmt : VideoFormat := ⟨251, "opus", "webm", some "48000", some 160, some 130, none, false⟩

/-- A non-native encoding preceding the native one in the list. -/
def mp4Fmt : VideoFormat := ⟨18, "mp4a.40.2", "mp4", some "44100", some 96, some 500, some 600, false⟩

/-- An uncached environment whose format list holds a non-native and then
a native encoding. -/
def uncachedEnv : Env := ⟨"/cache", fun _ => false, fun _ => [mp4Fmt, nativeFmt]⟩

/-- Witness for `native_format_direct_play` at a concrete environment. -/
theorem native_format_direct_play_witness :
    ∃ f l₁ l₂, uncachedEnv.formats "song" = l₁ ++ f :: l₂ ∧ formatFilter f = true ∧
      (∀ g ∈ l₁, formatFilter g = false) ∧
      getStream uncachedEnv "song" = Except.ok (StreamSrc.remote f Mode.direct) :=
  native_format_direct_play uncachedEnv "song" rfl ⟨nativeFmt, by decide, by decide⟩

/-- An uncached environment whose remote source reports no encodings at
all. -/
def emptyFormatsEnv : Env := ⟨"/cache", fun _ => false, fun _ => []⟩

/-- C8 (counterexample): on an empty encoding list, acquisition does not
fail with the suitable-format error the claim names; `nextBestFormat`
first evaluates `formats[0].live` (line 199), which on an empty array is
a TypeError on `undefined`, and that is what reaches the caller. -/
theorem empty_formats_typeerror :
    getStream emptyFormatsEnv "song" = Except.error Err.TypeErrorLiveOfUndefined ∧
    getStream emptyFormatsEnv "song" ≠ Except.error Err.NoSuitableFormatError := by
  decide

/-- When the live-branch lookup of `nextBestFormat` succeeds, the hit is a
whitelisted format of the original list with maximal audio bitrate key
among whitelisted formats. -/
theorem live_fallback_some (formats : List VideoFormat) (r : VideoFormat)
    (hfind : (sortByDesc (fun f => f.audioBitrate.getD 0) formats).find?
      (fun f => decide (f.itag ∈ itagWhitelist)) = some r) :
    r ∈ formats ∧ r.itag ∈ itagWhitelist ∧
      ∀ g ∈ formats, g.itag ∈ itagWhitelist → g.audioBitrate.getD 0 ≤ r.audioBitrate.getD 0 := by
  have hp := List.find?_some hfind
  simp only [decide_eq_true_eq] at hp
  refine ⟨(mem_sortByDesc (fun f => f.audioBitrate.getD 0) formats r).mp
    (List.mem_of_find?_eq_some hfind), hp, ?_⟩
  intro g hg hgw
  exact find?_max_of_pairwise (fun f => f.audioBitrate.getD 0) _ _
    (pairwise_sortByDesc _ _) r hfind g
    ((mem_sortByDesc (fun f => f.audioBitrate.getD 0) formats g).mpr hg)
    (by simp [hgw])

/-- When the live-branch lookup fails, no format of the list carries a
whitelisted itag. -/
theorem live_fallback_none (formats : List VideoFormat)
    (hfind : (sortByDesc (fun f => f.audioBitrate.getD 0) formats).find?
      (fun f => decide (f.itag ∈ itagWhitelist)) = none) :
    ∀ g ∈ formats, g.itag ∉ itagWhitelist := by
  intro g hg hgw
  have hnone := List.find?_eq_none.mp hfind g
    ((mem_sortByDesc (fun f => f.audioBitrate.getD 0) formats g).mpr hg)
  exact hnone (by simp [hgw])

/-- When the finite-branch lookup finds a falsy-bitrate format, it lies in
the original list, reports a truthy average bitrate, and has falsy
bitrate. -/
theorem finite_fallback_some (formats : List VideoFormat) (r : VideoFormat)
    (hfind : (sortByDesc (fun f => f.averageBitrate.getD 0)
        (formats.filter fun f => truthyNum f.averageBitrate)).find?
        (fun f => !truthyNum f.bitrate) = some r) :
    r ∈ formats ∧ truthyNum r.averageBitrate = true ∧ truthyNum r.bitrate = false := by
  have h2 := List.mem_filter.mp
    ((mem_sortByDesc (fun f => f.averageBitrate.getD 0)
      (formats.filter fun f => truthyNum f.averageBitrate) r).mp
      (List.mem_of_find?_eq_some hfind))
  have h3 := List.find?_some hfind
  refine ⟨h2.1, h2.2, ?_⟩
  simpa using h3

/-- When no falsy-bitrate format exists, the head of the sorted filtered
list reports a truthy average bitrate that dominates every format with a
truthy average bitrate, all of which have truthy bitrate. -/
theorem finite_fallback_head (formats : List VideoFormat) (r : VideoFormat)
    (hfind : (sortByDesc (fun f => f.averageBitrate.getD 0)
        (formats.filter fun f => truthyNum f.averageBitrate)).find?
        (fun f => !truthyNum f.bitrate) = none)
    (hh : (sortByDesc (fun f => f.averageBitrate.getD 0)
        (formats.filter fun f => truthyNum f.averageBitrate)).head? = some r) :
    r ∈ formats ∧ truthyNum r.averageBitrate = true ∧
      (∀ g ∈ formats, truthyNum g.averageBitrate = true → truthyNum g.bitrate = true) ∧
      (∀ g ∈ formats, truthyNum g.averageBitrate = true →
        g.averageBitrate.getD 0 ≤ r.averageBitrate.getD 0) := by
  have h2 := List.mem_filter.mp
    ((mem_sortByDesc (fun f => f.averageBitrate.getD 0)
      (formats.filter fun f => truthyNum f.averageBitrate) r).mp
      (List.mem_of_mem_head? hh))
  refine ⟨h2.1, h2.2, ?_, ?_⟩
  · intro g hg hga
    have hgfil : g ∈ formats.filter (fun f => truthyNum f.averageBitrate) :=
      List.mem_filter.mpr ⟨hg, hga⟩
    have hgfs := (mem_sortByDesc (fun f => f.averageBitrate.getD 0)
      (formats.filter fun f => truthyNum f.averageBitrate) g).mpr hgfil
    have hnone := List.find?_eq_none.mp hfind g hgfs
    cases hb : truthyNum g.bitrate with
    | true => rfl
    | false => exact absurd (by simp [hb]) hnone
  · intro g hg hga
    have hgfil : g ∈ formats.filter (fun f => truthyNum f.averageBitrate) :=
      List.mem_filter.mpr ⟨hg, hga⟩
    have hgfs := (mem_sortByDesc (fun f => f.averageBitrate.getD 0)
      (formats.filter fun f => truthyNum f.averageBitrate) g).mpr hgfil
    exact head?_max_of_pairwise _ _ (pairwise_sortByDesc _ _) r hh g hgfs

/-- When the sorted filtered list is empty, no format reports a truthy
average bitrate. -/
theorem finite_fallback_empty (formats : List VideoFormat)
    (hh : (sortByDesc (fun f => f.averageBitrate.getD 0)
        (formats.filter fun f => truthyNum f.averageBitrate)).head? = none) :
    ∀ g ∈ formats, truthyNum g.averageBitrate = false := by
  intro g hg
  cases hb : truthyNum g.averageBitrate with
  | false => rfl
  | true =>
    have hgfil : g ∈ formats.filter (fun f => truthyNum f.averageBitrate) :=
      List.mem_filter.mpr ⟨hg, hb⟩
    have hgfs := (mem_sortByDesc (fun f => f.averageBitrate.getD 0)
      (formats.filter fun f => truthyNum f.averageBitrate) g).mpr hgfil
    rw [List.head?_eq_none_iff.mp hh] at hgfs
    cases hgfs

/-- Unfolding of `nextBestFormat` on a list whose first format is live. -/
theorem nbf_live_eq (f0 : VideoFormat) (rest : List VideoFormat) (hlive : f0.live = true) :
    nextBestFormat (f0 :: rest) =
      Except.ok ((sortByDesc (fun f => f.audioBitrate.getD 0) (f0 :: rest)).find?
        fun f => decide (f.itag ∈ itagWhitelist)) := by
  simp [nextBestFormat, hlive]

/-- Unfolding of `nextBestFormat` on a list whose first format is not
live. -/
theorem nbf_finite_eq (f0 : VideoFormat) (rest : List VideoFormat) (hlive : f0.live = false) :
    nextBestFormat (f0 :: rest) =
      Except.ok
        (match (sortByDesc (fun f => f.averageBitrate.getD 0)
            ((f0 :: rest).filter fun f => truthyNum f.averageBitrate)).find?
            (fun f => !truthyNum f.bitrate) with
         | some r => some r
         | none => (sortByDesc (fun f => f.averageBitrate.getD 0)
            ((f0 :: rest).filter fun f => truthyNum f.averageBitrate)).head?) := by
  simp [nextBestFormat, hlive]

/-- C8 (amended): the fallback selection of `nextBestFormat`
(lines 198-209) behaves as the claim says for nonempty encoding lists —
live sources (first format live, all audio bitrates reported) get the
highest-audio-bitrate whitelisted encoding or no fallback at all; finite
sources get, among encodings reporting a truthy average bitrate, one with
an unspecified (falsy) bitrate if present, else the single
highest-average-bitrate one; and a nonempty list with no native match and
no fallback makes `getStream` fail with the suitable-format error — but
on an EMPTY encoding list the access `formats[0].live` raises a TypeError
instead of the suitable-format error the claim names. -/
theorem fallback_selection (formats : List VideoFormat) :
    (formats = [] → nextBestFormat formats = Except.error Err.TypeErrorLiveOfUndefined) ∧
    (∀ f0 rest, formats = f0 :: rest → f0.live = true →
      (∀ g ∈ formats, g.audioBitrate.isSome = true) →
      ((∃ r, nextBestFormat formats = Except.ok (some r) ∧ r ∈ formats ∧
          r.itag ∈ itagWhitelist ∧
          ∀ g ∈ formats, g.itag ∈ itagWhitelist →
            g.audioBitrate.getD 0 ≤ r.audioBitrate.getD 0) ∨
        (nextBestFormat formats = Except.ok none ∧ ∀ g ∈ formats, g.itag ∉ itagWhitelist))) ∧
    (∀ f0 rest, formats = f0 :: rest → f0.live = false →
      ((∃ r, nextBestFormat formats = Except.ok (some r) ∧ r ∈ formats ∧
          truthyNum r.averageBitrate = true ∧
          (truthyNum r.bitrate = true →
            (∀ g ∈ formats, truthyNum g.averageBitrate = true → truthyNum g.bitrate = true) ∧
            (∀ g ∈ formats, truthyNum g.averageBitrate = true →
              g.averageBitrate.getD 0 ≤ r.averageBitrate.getD 0))) ∨
        (nextBestFormat formats = Except.ok none ∧
          ∀ g ∈ formats, truthyNum g.averageBitrate = false))) ∧
    (∀ env : Env, ∀ url : String, env.cached url = false → env.formats url = formats →
      formats.find? formatFilter = none → nextBestFormat formats = Except.ok none →
      getStream env url = Except.error Err.NoSuitableFormatError) := by
  refine ⟨?_, ?_, ?_, ?_⟩
  · intro h
    subst h
    rfl
  · intro f0 rest hf hlive _hab
    subst hf
    cases hfind : (sortByDesc (fun f => f.audioBitrate.getD 0) (f0 :: rest)).find?
        (fun f => decide (f.itag ∈ itagWhitelist)) with
    | some r =>
      left
      obtain ⟨h1, h2, h3⟩ := live_fallback_some (f0 :: rest) r hfind
      exact ⟨r, by rw [nbf_live_eq f0 rest hlive, hfind], h1, h2, h3⟩
    | none =>
      right
      exact ⟨by rw [nbf_live_eq f0 rest hlive, hfind], live_fallback_none (f0 :: rest) hfind⟩
  · intro f0 rest hf hlive
    subst hf
    cases hfind : (sortByDesc (fun f => f.averageBitrate.getD 0)
        ((f0 :: rest).filter fun f => truthyNum f.averageBitrate)).find?
        (fun f => !truthyNum f.bitrate) with
    | some r =>
      left
      obtain ⟨h1, h2, h3⟩ := finite_fallback_some (f0 :: rest) r hfind
      refine ⟨r, by rw [nbf_finite_eq f0 rest hlive, hfind], h1, h2, ?_⟩
      intro hrb
      rw [h3] at hrb
      cases hrb
    | none =>
      cases hh : (sortByDesc (fun f => f.averageBitrate.getD 0)
          ((f0 :: rest).filter fun f => truthyNum f.averageBitrate)).head? with
      | some r =>
        left
        obtain ⟨h1, h2, h3, h4⟩ := finite_fallback_head (f0 :: rest) r hfind hh
        refine ⟨r, by rw [nbf_finite_eq f0 rest hlive, hfind, hh], h1, h2, ?_⟩
        intro _
        exact ⟨h3, h4⟩
      | none =>
        right
        exact ⟨by rw [nbf_finite_eq f0 rest hlive, hfind, hh],
          finite_fallback_empty (f0 :: rest) hh⟩
  · intro env url hc hfmts hfnat hnbf
    simp [getStream, hc, hfmts, selectFormat, hfnat, hnbf]

/-- A live encoding with a whitelisted itag and low audio bitrate. -/
def liveLow : VideoFormat := ⟨128, "mp4a.40.2", "mp4", none, some 64, none, none, true⟩

/-- A live encoding with high audio bitrate but a non-whitelisted itag. -/
def liveHigh : VideoFormat := ⟨99, "mp4a.40.2", "mp4", none, some 128, none, none, true⟩

/-- A live encoding with a whitelisted itag and middling audio bitrate. -/
def liveMid : VideoFormat := ⟨127, "mp4a.40.2", "mp4", none, some 96, none, none, true⟩

/-- Witness for `fallback_selection`: the live branch evaluated at a
concrete three-element encoding list. -/
theorem fallback_selection_witness :
    (∃ r, nextBestFormat [liveLow, liveHigh, liveMid] = Except.ok (some r) ∧
        r ∈ [liveLow, liveHigh, liveMid] ∧ r.itag ∈ itagWhitelist ∧
        ∀ g ∈ [liveLow, liveHigh, liveMid], g.itag ∈ itagWhitelist →
          g.audioBitrate.getD 0 ≤ r.audioBitrate.getD 0) ∨
    (nextBestFormat [liveLow, liveHigh, liveMid] = Except.ok none ∧
      ∀ g ∈ [liveLow, liveHigh, liveMid], g.itag ∉ itagWhitelist) :=
  (fallback_selection [liveLow, liveHigh, liveMid]).2.1 liveLow [liveHigh, liveMid]
    rfl rfl (by decide)
